import Mathlib

/-!
# Songshomie room/playback server — shallow embedding

This file embeds the server-side room session and playback synchronization
engine of the repository (the socket server in `server.js` and the
`WebSocketManager` in `src/hooks/use-websocket.ts`) as executable Lean
definitions, and proves properties of the embedded handlers.

Modelling conventions:
* JS `Map` objects (`room.participants`) become insertion-ordered
  association lists with the `Map` semantics of `set` (replace in place if
  the key exists, else append), `delete` and `get`.
* JS numbers become `ℚ` (timestamps in milliseconds, positions in seconds);
  `Date.now()` becomes an explicit `now : ℚ` parameter of each handler.
* JS truthiness tests on numbers (`x &&`, `x || y`) are embedded exactly:
  `null`/`undefined` and `0` are falsy.
* Each socket event handler becomes a function from the room-registry state
  (restricted to the one room the handler looks up, since rooms never
  interact) and the handler inputs to the new state paired with the list of
  socket emissions it performs, in order.
* Fields that no handler reads (`joinedAt`, `isOnline`, `createdAt`,
  `lastSyncTime` excepted, chat payload details) are elided or simplified
  where noted; all fields involved in control flow are kept.
-/

/-- A participant slot as stored in `room.participants`
(`participantData` in the join handler). -/
structure Participant where
  id : String
  name : String
  isAdmin : Bool
  deriving Repr, DecidableEq

/-- The client-supplied `user` object of a `join-room` message. -/
structure JoinUser where
  id : String
  name : String
  isAdmin : Bool
  deriving Repr, DecidableEq

/-- A song in the playlist (fields not read by any handler elided). -/
structure Song where
  id : String
  title : String
  url : String
  duration : ℚ
  deriving Repr, DecidableEq

/-- `room.playbackState`. -/
structure PlaybackState where
  currentSong : Option Song
  isPlaying : Bool
  currentTime : ℚ
  volume : ℚ
  playlist : List Song
  currentIndex : Int
  serverStartTime : Option ℚ
  playbackStartTime : Option ℚ
  lastSyncTime : ℚ
  deriving Repr, DecidableEq

/-- `room.settings`. -/
structure RoomSettings where
  allowGuestControl : Bool
  maxParticipants : Nat
  isPublic : Bool
  requireApproval : Bool
  deriving Repr, DecidableEq

/-- A room entry of the `rooms` registry. `participants` is the JS `Map`
from socket id to participant slot, in insertion order. -/
structure Room where
  id : String
  name : String
  creator : String
  participants : List (String × Participant)
  messages : List String
  playbackState : PlaybackState
  settings : RoomSettings
  deriving Repr, DecidableEq

/-! ## JS `Map` operations on association lists -/

/-- `m.set(k, v)`: replace in place when the key exists, else append. -/
def mapSet (m : List (String × Participant)) (k : String) (v : Participant) :
    List (String × Participant) :=
  if m.any (fun p => p.1 = k) then
    m.map (fun p => if p.1 = k then (k, v) else p)
  else
    m ++ [(k, v)]

/-- `m.delete(k)`. -/
def mapDelete (m : List (String × Participant)) (k : String) :
    List (String × Participant) :=
  m.filter (fun p => p.1 ≠ k)

/-- `m.get(k)` (`undefined` becomes `none`). -/
def mapGet (m : List (String × Participant)) (k : String) : Option Participant :=
  (m.find? (fun p => p.1 = k)).map (·.2)

/-- `m.has(k)`. -/
def mapHas (m : List (String × Participant)) (k : String) : Bool :=
  m.any (fun p => p.1 = k)

/-! ## JS truthiness -/

/-- Truthiness of a JS number-or-null value: `null`/`undefined` and `0`
are falsy. -/
def jsTruthyNum (x : Option ℚ) : Bool :=
  match x with
  | none => false
  | some v => if v = 0 then false else true

/-- Truthiness of a JS string-or-undefined value: `undefined` and `""`
are falsy. -/
def jsTruthyStr (x : Option String) : Bool :=
  match x with
  | none => false
  | some s => if s = "" then false else true

/-- `a || b` on a JS number-or-undefined left operand. -/
def jsOrNum (a : Option ℚ) (b : ℚ) : ℚ :=
  match a with
  | none => b
  | some x => if x = 0 then b else x

/-! ## Emission model -/

/-- The destination of one `emit` call. -/
inductive Target where
  /-- `socket.emit(...)` on the handling connection, or `io.to(sid)` for a
  specific socket id. -/
  | toSid (sid : String)
  /-- `socket.to(roomId).emit(...)`: everyone in the room but the sender. -/
  | othersInRoom (sid : String)
  /-- `io.to(roomId).emit(...)`: everyone in the room. -/
  | room
  deriving Repr, DecidableEq

/-- The server-to-client events the handlers emit (payload fields not
inspected by any claim elided). -/
inductive ServerEvent where
  | roomError (msg : String)
  | userJoined (user : String)
  | roomState
  | syncUpdate (playbackState : PlaybackState) (serverTime : ℚ)
  | userLeft (user : String)
  | playbackStateChanged (playbackState : PlaybackState) (serverTime : ℚ)
  | permissionDenied (msg : String)
  | kickedFromRoom
  | adminTransferred (newAdmin : String)
  | roomSettingsUpdated
  deriving Repr, DecidableEq

/-- The registry restricted to one room identifier (handlers only ever
touch the single room they look up, so rooms evolve independently). -/
abbrev RoomReg := Option Room

abbrev Emits := List (Target × ServerEvent)

/-! ## Handlers (server.js) -/

/-- The fresh room created on first join (`newRoom` in the join handler). -/
def freshRoom (roomId : String) (userName : String) (now : ℚ) : Room :=
  { id := roomId
    name := "Room " ++ roomId
    creator := userName
    participants := []
    messages := []
    playbackState :=
      { currentSong := none
        isPlaying := false
        currentTime := 0
        volume := 1
        playlist := []
        currentIndex := -1
        serverStartTime := none
        playbackStartTime := none
        lastSyncTime := now }
    settings :=
      { allowGuestControl := false
        maxParticipants := 50
        isPublic := true
        requireApproval := false } }

/-- The socket id of the first slot whose participant identifier is `uid`
(the scan loops of the join / kick-user / transfer-admin handlers). -/
def findSocketByUserId (m : List (String × Participant)) (uid : String) :
    Option String :=
  (m.find? (fun p => p.2.id = uid)).map (·.1)

/-- The reconnection step of the join handler: drop the old slot sharing
the joining participant's identifier, if it sits on a different socket. -/
def reconnectScan (m : List (String × Participant)) (uid sid : String) :
    List (String × Participant) :=
  match findSocketByUserId m uid with
  | some esid => if esid ≠ sid then mapDelete m esid else m
  | none => m

/-- The `join-room` handler. -/
def joinRoom (st : RoomReg) (roomId sid : String) (user : JoinUser) (now : ℚ) :
    RoomReg × Emits :=
  -- `if (!roomId || !user || !user.name)`
  if roomId = "" ∨ user.name = "" then
    (st, [(Target.toSid sid, ServerEvent.roomError "Invalid room data")])
  else
    -- create the room if it does not exist (stored before the full check)
    let room0 := st.getD (freshRoom roomId user.name now)
    if room0.participants.length ≥ room0.settings.maxParticipants then
      (some room0, [(Target.toSid sid, ServerEvent.roomError "Room is full")])
    else
      -- remove the old connection of a reconnecting participant
      let parts1 := reconnectScan room0.participants user.id sid
      -- `isAdmin: room.participants.size === 0 ? true : user.isAdmin || false`
      let pdata : Participant :=
        { id := user.id
          name := user.name
          isAdmin := if parts1.length = 0 then true else user.isAdmin }
      let creator1 := if parts1.length = 0 then user.name else room0.creator
      let parts2 := mapSet parts1 sid pdata
      let room1 := { room0 with participants := parts2, creator := creator1 }
      let emits : Emits :=
        (if parts2.length > 1 then
          [(Target.othersInRoom sid, ServerEvent.userJoined user.name)]
         else []) ++
        [(Target.toSid sid, ServerEvent.roomState)]
      (some room1, emits)

/-- The `disconnect` handler, restricted to the one room (the loop over the
registry removes the socket from the first room containing it). -/
def disconnect (st : RoomReg) (sid : String) : RoomReg × Emits :=
  match st with
  | none => (none, [])
  | some r =>
    if mapHas r.participants sid then
      let uname := ((mapGet r.participants sid).map (·.name)).getD ""
      let parts := mapDelete r.participants sid
      let emits : Emits := [(Target.othersInRoom sid, ServerEvent.userLeft uname)]
      if parts.length = 0 then (none, emits)
      else (some { r with participants := parts }, emits)
    else (some r, [])

/-- The `request-sync` handler. -/
def requestSync (st : RoomReg) (sid : String) (now : ℚ) : RoomReg × Emits :=
  match st with
  | none => (none, [])
  | some r =>
    let ps := r.playbackState
    let calculatedTime :=
      if ps.isPlaying && jsTruthyNum ps.serverStartTime && ps.playbackStartTime.isSome then
        ps.playbackStartTime.getD 0 + (now - ps.serverStartTime.getD 0) / 1000
      else ps.currentTime
    (some r,
     [(Target.toSid sid,
       ServerEvent.syncUpdate { ps with currentTime := calculatedTime } now)])

/-! ## Playback control -/

/-- The `action` string of a `playback-control` message; `unknownAction`
stands for any string the switch has no case for. -/
inductive PCAction where
  | play | pause | seek | next | previous | volume | unknownAction
  deriving Repr, DecidableEq

/-- The optional `payload` of a `playback-control` message. -/
structure PCPayload where
  currentTime : Option ℚ
  volume : Option ℚ
  deriving Repr, DecidableEq

/-- The `play` case: `playbackStartTime = payload?.currentTime ||
room.playbackState.currentTime` (JS `||`, so a supplied `0` falls back). -/
def playState (ps : PlaybackState) (payload : Option PCPayload) (now : ℚ) :
    PlaybackState :=
  { ps with
    isPlaying := true
    serverStartTime := some now
    playbackStartTime := some (jsOrNum (payload.bind (·.currentTime)) ps.currentTime)
    lastSyncTime := now }

/-- The `pause` case. -/
def pauseState (ps : PlaybackState) (now : ℚ) : PlaybackState :=
  let ps1 := { ps with isPlaying := false }
  let ps2 :=
    if jsTruthyNum ps1.serverStartTime && ps1.playbackStartTime.isSome then
      { ps1 with currentTime :=
          ps1.playbackStartTime.getD 0 + (now - ps1.serverStartTime.getD 0) / 1000 }
    else ps1
  { ps2 with serverStartTime := none, playbackStartTime := none, lastSyncTime := now }

/-- The `seek` case (a missing `payload.currentTime` would store JS
`undefined`; modelled only for present payloads, else a no-op). -/
def seekState (ps : PlaybackState) (payload : Option PCPayload) (now : ℚ) :
    PlaybackState :=
  match payload.bind (·.currentTime) with
  | none => ps
  | some c =>
    let ps1 := { ps with currentTime := c }
    let ps2 :=
      if ps1.isPlaying then
        { ps1 with serverStartTime := some now, playbackStartTime := some c }
      else ps1
    { ps2 with lastSyncTime := now }

/-- The `next` case: guarded by `currentIndex < playlist.length - 1`. -/
def nextState (ps : PlaybackState) (now : ℚ) : PlaybackState :=
  if ps.currentIndex < (ps.playlist.length : Int) - 1 then
    let idx := ps.currentIndex + 1
    let ps1 := { ps with
      currentIndex := idx
      currentSong := ps.playlist.get? idx.toNat
      currentTime := 0 }
    let ps2 :=
      if ps1.isPlaying then
        { ps1 with serverStartTime := some now, playbackStartTime := some 0 }
      else ps1
    { ps2 with lastSyncTime := now }
  else ps

/-- The `previous` case: guarded by `currentIndex > 0`. -/
def previousState (ps : PlaybackState) (now : ℚ) : PlaybackState :=
  if ps.currentIndex > 0 then
    let idx := ps.currentIndex - 1
    let ps1 := { ps with
      currentIndex := idx
      currentSong := ps.playlist.get? idx.toNat
      currentTime := 0 }
    let ps2 :=
      if ps1.isPlaying then
        { ps1 with serverStartTime := some now, playbackStartTime := some 0 }
      else ps1
    { ps2 with lastSyncTime := now }
  else ps

/-- The `volume` case (a missing payload would throw in JS; modelled only
for present payloads, else a no-op). -/
def volumeState (ps : PlaybackState) (payload : Option PCPayload) (now : ℚ) :
    PlaybackState :=
  match payload.bind (·.volume) with
  | none => ps
  | some v => { ps with volume := v, lastSyncTime := now }

/-- The body of the `switch (action)` statement; an unknown action mutates
nothing (the switch has no default case). -/
def applyPCAction (ps : PlaybackState) (action : PCAction)
    (payload : Option PCPayload) (now : ℚ) : PlaybackState :=
  match action with
  | .play => playState ps payload now
  | .pause => pauseState ps now
  | .seek => seekState ps payload now
  | .next => nextState ps now
  | .previous => previousState ps now
  | .volume => volumeState ps payload now
  | .unknownAction => ps

/-- The `playback-control` handler: membership check, permission gate,
action switch, then an unconditional `playback-state-changed` broadcast. -/
def playbackControl (st : RoomReg) (sid : String) (action : PCAction)
    (payload : Option PCPayload) (now : ℚ) : RoomReg × Emits :=
  match st with
  | none => (none, [])
  | some room =>
    match mapGet room.participants sid with
    | none => (some room, [])
    | some user =>
      if !user.isAdmin && !room.settings.allowGuestControl then
        (some room,
         [(Target.toSid sid,
           ServerEvent.permissionDenied "Only admins can control playback")])
      else
        let ps1 := applyPCAction room.playbackState action payload now
        (some { room with playbackState := ps1 },
         [(Target.room, ServerEvent.playbackStateChanged ps1 now)])

/-! ## User management actions -/

/-- The `action` string of a `user-action` message. -/
inductive UserAction where
  | kickUser | transferAdmin | updateSettings | unknownUserAction
  deriving Repr, DecidableEq

/-- A partial settings object supplied to `update-settings`. -/
structure SettingsPatch where
  allowGuestControl : Option Bool
  maxParticipants : Option Nat
  isPublic : Option Bool
  requireApproval : Option Bool
  deriving Repr, DecidableEq

/-- `{ ...room.settings, ...payload }`. -/
def mergeSettings (s : RoomSettings) (p : SettingsPatch) : RoomSettings :=
  { allowGuestControl := p.allowGuestControl.getD s.allowGuestControl
    maxParticipants := p.maxParticipants.getD s.maxParticipants
    isPublic := p.isPublic.getD s.isPublic
    requireApproval := p.requireApproval.getD s.requireApproval }

/-- `participant.isAdmin = b` for the slot stored at key `k`
(in JS a field write on the object held in the `Map`). -/
def mapSetAdmin (m : List (String × Participant)) (k : String) (b : Bool) :
    List (String × Participant) :=
  m.map (fun p => if p.1 = k then (p.1, { p.2 with isAdmin := b }) else p)

/-- The `user-action` handler (kick-user / transfer-admin /
update-settings), including the admin permission gate. -/
def userAction (st : RoomReg) (sid : String) (action : UserAction)
    (targetUserId : Option String) (payload : Option SettingsPatch) :
    RoomReg × Emits :=
  match st with
  | none => (none, [])
  | some room =>
    match mapGet room.participants sid with
    | none => (some room, [])
    | some adminUser =>
      if !adminUser.isAdmin then
        (some room,
         [(Target.toSid sid,
           ServerEvent.permissionDenied "Only admins can perform this action")])
      else
        match action with
        | .kickUser =>
          if jsTruthyStr targetUserId then
            match findSocketByUserId room.participants (targetUserId.getD "") with
            | none => (some room, [])
            | some tsock =>
              let tname := ((mapGet room.participants tsock).map (·.name)).getD ""
              let parts := mapDelete room.participants tsock
              (some { room with participants := parts },
               [(Target.toSid tsock, ServerEvent.kickedFromRoom),
                (Target.room, ServerEvent.userLeft tname)])
          else (some room, [])
        | .transferAdmin =>
          if jsTruthyStr targetUserId then
            match findSocketByUserId room.participants (targetUserId.getD "") with
            | none => (some room, [])
            | some tsock =>
              -- `adminUser.isAdmin = false` then `targetUser.isAdmin = true`
              let parts1 := mapSetAdmin room.participants sid false
              let parts2 := mapSetAdmin parts1 tsock true
              let tname := ((mapGet parts2 tsock).map (·.name)).getD ""
              (some { room with participants := parts2, creator := tname },
               [(Target.room, ServerEvent.adminTransferred tname)])
          else (some room, [])
        | .updateSettings =>
          match payload with
          | some p =>
            (some { room with settings := mergeSettings room.settings p },
             [(Target.room, ServerEvent.roomSettingsUpdated)])
          | none => (some room, [])
        | .unknownUserAction => (some room, [])

/-! ## `WebSocketManager.broadcastSync` (src/hooks/use-websocket.ts) -/

/-- The periodic sync broadcast: bails out unless the room is playing, then
emits a copy of the playback state with the recomputed current time. -/
def broadcastSync (st : RoomReg) (now : ℚ) : RoomReg × Emits :=
  match st with
  | none => (none, [])
  | some r =>
    if !r.playbackState.isPlaying then (some r, [])
    else
      let ps := r.playbackState
      let calculatedTime :=
        if jsTruthyNum ps.serverStartTime && ps.playbackStartTime.isSome then
          ps.playbackStartTime.getD 0 + (now - ps.serverStartTime.getD 0) / 1000
        else ps.currentTime
      (some r,
       [(Target.room,
         ServerEvent.syncUpdate { ps with currentTime := calculatedTime } now)])

/-! ## Operation sequences over a room -/

/-- One externally-triggered operation on a room, with the server time at
which it is handled where the handler reads the clock. -/
inductive Op where
  | join (sid : String) (user : JoinUser) (now : ℚ)
  | disconnect (sid : String)
  | kick (sid : String) (targetUserId : Option String)
  | transfer (sid : String) (targetUserId : Option String)
  deriving Repr

/-- Apply one operation to the registry entry of a fixed room. -/
def stepOp (roomId : String) (st : RoomReg) : Op → RoomReg
  | .join sid u now => (joinRoom st roomId sid u now).1
  | .disconnect sid => (disconnect st sid).1
  | .kick sid t => (userAction st sid UserAction.kickUser t none).1
  | .transfer sid t => (userAction st sid UserAction.transferAdmin t none).1

/-- Run a sequence of operations on an initially absent room. -/
def runOps (roomId : String) (ops : List Op) : RoomReg :=
  ops.foldl (stepOp roomId) none

/-- Number of participant slots with `isAdmin = true`. -/
def adminCountL (m : List (String × Participant)) : Nat :=
  m.countP (fun p => p.2.isAdmin)

/-- Admin count of the registry entry (0 when the room is absent). -/
def adminCount (st : RoomReg) : Nat :=
  match st with
  | none => 0
  | some r => adminCountL r.participants

/-- Participant count of the registry entry (0 when the room is absent). -/
def participantCount (st : RoomReg) : Nat :=
  match st with
  | none => 0
  | some r => r.participants.length

/-- The socket-id keys of the participants map are distinct (a JS `Map`
cannot hold a key twice). -/
def keysNodup (m : List (String × Participant)) : Prop :=
  (m.map (·.1)).Nodup

/-- Distinct keys and at most one admin slot: the inductive invariant of
the participants map. -/
def InvParts (m : List (String × Participant)) : Prop :=
  keysNodup m ∧ adminCountL m ≤ 1

/-- The invariant lifted to the registry entry. -/
def InvReg (st : RoomReg) : Prop :=
  ∀ r, st = some r → InvParts r.participants

/-- Joins whose client payload does not assert the admin flag. -/
def goodOp : Op → Bool
  | .join _ u _ => !u.isAdmin
  | _ => true

/-! ## Concrete fixtures used by counterexamples and witnesses -/

/-- A room holding a single admin participant on socket `s1`. -/
def soloAdminRoom : Room :=
  { freshRoom "R" "A" 0 with participants := [("s1", ⟨"a", "A", true⟩)] }

/-- `soloAdminRoom` with a one-song playlist positioned at its last index
(which is also index 0). -/
def boundaryRoom : Room :=
  { soloAdminRoom with
    playbackState := { soloAdminRoom.playbackState with
      playlist := [⟨"t", "T", "u", 180⟩]
      currentIndex := 0
      currentSong := some ⟨"t", "T", "u", 180⟩ } }

/-- `soloAdminRoom` with a stored paused position of 42 seconds. -/
def pausedAt42Room : Room :=
  { soloAdminRoom with
    playbackState := { soloAdminRoom.playbackState with currentTime := 42 } }

/-- `soloAdminRoom` playing since server time 1000 from position 0. -/
def playingRoom : Room :=
  { soloAdminRoom with
    playbackState := { soloAdminRoom.playbackState with
      isPlaying := true
      serverStartTime := some 1000
      playbackStartTime := some 0 } }

/-- A room with a non-admin participant on socket `s2` besides the admin,
guest control disabled (the default). -/
def guestRoom : Room :=
  { soloAdminRoom with
    participants := [("s1", ⟨"a", "A", true⟩), ("s2", ⟨"b", "B", false⟩)] }

/-- The `playbackStartTime` stored in the registry entry, if any. -/
def playbackStartTimeOf (st : RoomReg) : Option (Option ℚ) :=
  st.map (fun r => r.playbackState.playbackStartTime)

/-- The stored admin flag of the slot whose participant identifier is
`uid`, if any. -/
def adminFlagOfId (st : RoomReg) (uid : String) : Option Bool :=
  st.bind (fun r => (r.participants.find? (fun p => p.2.id = uid)).map (·.2.isAdmin))

/-- Two joins where the second client asserts `isAdmin` in its payload. -/
def clientAdminOps : List Op :=
  [Op.join "s1" ⟨"a", "A", false⟩ 0, Op.join "s2" ⟨"b", "B", true⟩ 1]

/-- Two joins with honest (non-admin) payloads. -/
def honestJoinOps : List Op :=
  [Op.join "s1" ⟨"a", "A", false⟩ 0, Op.join "s2" ⟨"b", "B", false⟩ 1]

/-- A sole admin joining and then kicking their own participant id. -/
def selfKickOps : List Op :=
  [Op.join "s1" ⟨"a", "A", false⟩ 0, Op.kick "s1" (some "a")]

/-- `honestJoinOps` followed by a reconnect of participant `a` on a fresh
socket. -/
def reconnectOps : List Op :=
  honestJoinOps ++ [Op.join "s3" ⟨"a", "A", false⟩ 2]


/-! # Helper lemmas -/

theorem adminCountL_mapDelete_le (m : List (String × Participant)) (k : String) :
    adminCountL (mapDelete m k) ≤ adminCountL m := by
  unfold adminCountL mapDelete
  exact List.Sublist.countP_le _ (List.filter_sublist m)

theorem keysNodup_mapDelete {m : List (String × Participant)} (h : keysNodup m)
    (k : String) : keysNodup (mapDelete m k) := by
  unfold keysNodup mapDelete
  unfold keysNodup at h
  exact List.Nodup.sublist (List.Sublist.map _ (List.filter_sublist m)) h

theorem invParts_mapDelete {m : List (String × Participant)} (h : InvParts m)
    (k : String) : InvParts (mapDelete m k) :=
  ⟨keysNodup_mapDelete h.1 k, le_trans (adminCountL_mapDelete_le m k) h.2⟩

theorem adminCountL_mapSet_le {v : Participant} (hv : v.isAdmin = false)
    (m : List (String × Participant)) (k : String) :
    adminCountL (mapSet m k v) ≤ adminCountL m := by
  unfold mapSet adminCountL
  split
  · rw [List.countP_map]
    apply List.countP_mono_left
    intro p _ hp
    simp only [Function.comp] at hp
    split at hp
    · rw [hv] at hp
      exact absurd hp (by simp)
    · exact hp
  · rw [List.countP_append]
    simp [List.countP_cons, hv]

theorem keysNodup_mapSet {m : List (String × Participant)} (h : keysNodup m)
    (k : String) (v : Participant) : keysNodup (mapSet m k v) := by
  unfold keysNodup mapSet
  unfold keysNodup at h
  split
  · rw [List.map_map]
    have heq : ∀ p ∈ m,
        ((·.1) ∘ fun p : String × Participant => if p.1 = k then (k, v) else p) p = p.1 := by
      intro p _
      simp only [Function.comp]
      split <;> simp [*]
    rw [List.map_congr_left heq]
    exact h
  · rw [List.map_append, List.nodup_append]
    refine ⟨h, by simp, ?_⟩
    intro a ha hb
    simp at hb
    subst hb
    rename_i hany
    simp at hany
    obtain ⟨p, hp, hpk⟩ := List.mem_map.1 ha
    exact hany p.2 (by rw [← hpk]; exact hp)

theorem invParts_mapSet_false {m : List (String × Participant)} {v : Participant}
    (h : InvParts m) (hv : v.isAdmin = false) (k : String) : InvParts (mapSet m k v) :=
  ⟨keysNodup_mapSet h.1 k v, le_trans (adminCountL_mapSet_le hv m k) h.2⟩

theorem invParts_mapSet_nil (k : String) (v : Participant) : InvParts (mapSet [] k v) := by
  unfold InvParts mapSet keysNodup adminCountL
  refine ⟨by simp, ?_⟩
  simp only [List.any_nil, List.nil_append, if_neg Bool.false_ne_true, List.countP_cons,
    List.countP_nil]
  split <;> omega

theorem keys_mapSetAdmin (m : List (String × Participant)) (k : String) (b : Bool) :
    (mapSetAdmin m k b).map (·.1) = m.map (·.1) := by
  unfold mapSetAdmin
  rw [List.map_map]
  apply List.map_congr_left
  intro p _
  simp only [Function.comp]
  split <;> rfl

theorem keysNodup_mapSetAdmin {m : List (String × Participant)} (h : keysNodup m)
    (k : String) (b : Bool) : keysNodup (mapSetAdmin m k b) := by
  show ((mapSetAdmin m k b).map (·.1)).Nodup
  rw [keys_mapSetAdmin]
  exact h

theorem countP_key_mapSetAdmin (m : List (String × Participant)) (k : String) (b : Bool)
    (k' : String) :
    (mapSetAdmin m k b).countP (fun p => p.1 = k') = m.countP (fun p => p.1 = k') := by
  unfold mapSetAdmin
  rw [List.countP_map]
  apply List.countP_congr
  intro p _
  simp only [Function.comp]
  split <;> simp

theorem two_le_countP_of_two_mem {α : Type} {p : α → Bool} {l : List α} {a b : α}
    (ha : a ∈ l) (hb : b ∈ l) (hab : a ≠ b) (pa : p a = true) (pb : p b = true) :
    2 ≤ l.countP p := by
  obtain ⟨s, t, rfl⟩ := List.append_of_mem ha
  have hbst : b ∈ s ∨ b ∈ t := by
    rcases List.mem_append.1 hb with h | h
    · exact Or.inl h
    · rcases List.mem_cons.1 h with h | h
      · exact absurd h hab.symm
      · exact Or.inr h
  have happ : (s ++ a :: t).countP p = s.countP p + (t.countP p + 1) := by
    rw [List.countP_append, List.countP_cons, pa]
    simp
  rw [happ]
  rcases hbst with h | h
  · have h1 : 0 < s.countP p := List.countP_pos_iff.2 ⟨b, h, pb⟩
    omega
  · have h1 : 0 < t.countP p := List.countP_pos_iff.2 ⟨b, h, pb⟩
    omega

theorem mapGet_find? {m : List (String × Participant)} {k : String} {u : Participant}
    (h : mapGet m k = some u) :
    ∃ e, m.find? (fun p => p.1 = k) = some e ∧ e.2 = u ∧ e.1 = k ∧ e ∈ m := by
  unfold mapGet at h
  rcases Option.map_eq_some'.1 h with ⟨e, h1, h2⟩
  refine ⟨e, h1, h2, ?_, List.mem_of_find?_eq_some h1⟩
  have := List.find?_some h1
  simpa using this

theorem adminCountL_clear_eq_zero {m : List (String × Participant)} {k : String}
    {u : Participant} (hct : adminCountL m ≤ 1) (hget : mapGet m k = some u)
    (hadm : u.isAdmin = true) : adminCountL (mapSetAdmin m k false) = 0 := by
  obtain ⟨e, _, he2, hek, hem⟩ := mapGet_find? hget
  unfold mapSetAdmin adminCountL
  rw [List.countP_map, List.countP_eq_zero]
  intro q hq hcontra
  simp only [Function.comp] at hcontra
  split at hcontra
  · simp at hcontra
  · rename_i hqk
    have hqe : q ≠ e := fun h => hqk (by rw [h, hek])
    have h2 : 2 ≤ adminCountL m :=
      two_le_countP_of_two_mem hq hem hqe hcontra (by rw [he2]; exact hadm)
    omega

theorem countP_or_le {α : Type} (p q : α → Bool) (l : List α) :
    l.countP (fun a => p a || q a) ≤ l.countP p + l.countP q := by
  induction l with
  | nil => simp
  | cons a l ih =>
    rw [List.countP_cons, List.countP_cons, List.countP_cons]
    cases hp : p a <;> cases hq : q a <;> simp [hp, hq] <;> omega

theorem adminCountL_setTrue_le (m : List (String × Participant)) (k : String) :
    adminCountL (mapSetAdmin m k true) ≤ m.countP (fun p => p.1 = k) + adminCountL m := by
  unfold mapSetAdmin adminCountL
  rw [List.countP_map]
  calc (m.countP fun q =>
          ((fun p => if p.1 = k then (p.1, { p.2 with isAdmin := true }) else p) q).2.isAdmin)
      = m.countP (fun q => decide (q.1 = k) || q.2.isAdmin) := by
        apply List.countP_congr
        intro q _
        simp only []
        split <;> simp [*]
    _ ≤ _ := countP_or_le _ _ m

theorem countP_key_le_one {m : List (String × Participant)} (h : keysNodup m)
    (k : String) : m.countP (fun p => p.1 = k) ≤ 1 := by
  induction m with
  | nil => simp
  | cons a m ih =>
    have h' : a.1 ∉ m.map (·.1) ∧ keysNodup m := by
      unfold keysNodup at h
      simpa using h
    rw [List.countP_cons]
    by_cases hak : a.1 = k
    · have hz : m.countP (fun p => p.1 = k) = 0 := by
        rw [List.countP_eq_zero]
        intro q hq hqk
        simp at hqk
        exact h'.1 (List.mem_map.2 ⟨q, hq, by rw [hqk, hak]⟩)
      simp [hak, hz]
    · simp [hak]
      exact ih h'.2

theorem eq_of_keysNodup {m : List (String × Participant)} (h : keysNodup m)
    {e f : String × Participant} (he : e ∈ m) (hf : f ∈ m) (hk : e.1 = f.1) : e = f :=
  List.inj_on_of_nodup_map h he hf hk

theorem invParts_transfer {m : List (String × Participant)} (h : InvParts m)
    {sid : String} {adminUser : Participant} (hget : mapGet m sid = some adminUser)
    (hadm : adminUser.isAdmin = true) (tsock : String) :
    InvParts (mapSetAdmin (mapSetAdmin m sid false) tsock true) := by
  refine ⟨keysNodup_mapSetAdmin (keysNodup_mapSetAdmin h.1 sid false) tsock true, ?_⟩
  have h0 : adminCountL (mapSetAdmin m sid false) = 0 :=
    adminCountL_clear_eq_zero h.2 hget hadm
  have h1 := adminCountL_setTrue_le (mapSetAdmin m sid false) tsock
  have h2 := countP_key_mapSetAdmin m sid false tsock
  have h3 := countP_key_le_one h.1 tsock
  omega

theorem invParts_joinSlot {m1 : List (String × Participant)} (h1 : InvParts m1)
    (sid : String) (u : JoinUser) (hu : u.isAdmin = false) :
    InvParts (mapSet m1 sid
      { id := u.id, name := u.name, isAdmin := if m1.length = 0 then true else u.isAdmin }) := by
  by_cases hlen : m1.length = 0
  · have hnil : m1 = [] := List.length_eq_zero.1 hlen
    subst hnil
    exact invParts_mapSet_nil _ _
  · rw [if_neg hlen]
    exact invParts_mapSet_false h1 hu sid

theorem invParts_reconnectScan {m : List (String × Participant)} (h0 : InvParts m)
    (uid sid : String) : InvParts (reconnectScan m uid sid) := by
  unfold reconnectScan
  cases findSocketByUserId m uid with
  | none => exact h0
  | some esid =>
    dsimp only
    split
    · exact invParts_mapDelete h0 _
    · exact h0

theorem invReg_joinRoom {st : RoomReg} (h : InvReg st) {u : JoinUser}
    (hu : u.isAdmin = false) (roomId sid : String) (now : ℚ) :
    InvReg (joinRoom st roomId sid u now).1 := by
  have h0 : InvParts (st.getD (freshRoom roomId u.name now)).participants := by
    rcases st with _ | r
    · simp [freshRoom, InvParts, keysNodup, adminCountL]
    · exact h r rfl
  unfold joinRoom
  split
  · exact h
  · dsimp only
    split
    · intro r hr
      injection hr with hr
      subst hr
      exact h0
    · intro r hr
      injection hr with hr
      subst hr
      exact invParts_joinSlot (invParts_reconnectScan h0 u.id sid) sid u hu

theorem invReg_disconnect {st : RoomReg} (h : InvReg st) (sid : String) :
    InvReg (disconnect st sid).1 := by
  rcases st with _ | r
  · exact h
  · unfold disconnect
    dsimp only
    split
    · split
      · intro r' hr'
        exact absurd hr' (by simp)
      · intro r' hr'
        injection hr' with hr'
        subst hr'
        exact invParts_mapDelete (h r rfl) sid
    · intro r' hr'
      injection hr' with hr'
      subst hr'
      exact h r rfl

theorem invReg_userAction_kick {st : RoomReg} (h : InvReg st) (sid : String)
    (t : Option String) : InvReg (userAction st sid UserAction.kickUser t none).1 := by
  rcases st with _ | room
  · exact h
  · unfold userAction
    dsimp only
    cases hget : mapGet room.participants sid with
    | none =>
      dsimp only
      intro r' hr'
      injection hr' with hr'
      subst hr'
      exact h room rfl
    | some adminUser =>
      dsimp only
      split
      · intro r' hr'
        injection hr' with hr'
        subst hr'
        exact h room rfl
      · split
        · cases hfind : findSocketByUserId room.participants (t.getD "") with
          | none =>
            dsimp only
            intro r' hr'
            injection hr' with hr'
            subst hr'
            exact h room rfl
          | some tsock =>
            dsimp only
            intro r' hr'
            injection hr' with hr'
            subst hr'
            exact invParts_mapDelete (h room rfl) tsock
        · intro r' hr'
          injection hr' with hr'
          subst hr'
          exact h room rfl

theorem invReg_userAction_transfer {st : RoomReg} (h : InvReg st) (sid : String)
    (t : Option String) : InvReg (userAction st sid UserAction.transferAdmin t none).1 := by
  rcases st with _ | room
  · exact h
  · unfold userAction
    dsimp only
    cases hget : mapGet room.participants sid with
    | none =>
      dsimp only
      intro r' hr'
      injection hr' with hr'
      subst hr'
      exact h room rfl
    | some adminUser =>
      dsimp only
      split
      · intro r' hr'
        injection hr' with hr'
        subst hr'
        exact h room rfl
      · rename_i hcond
        have hadm : adminUser.isAdmin = true := by simpa using hcond
        split
        · cases hfind : findSocketByUserId room.participants (t.getD "") with
          | none =>
            dsimp only
            intro r' hr'
            injection hr' with hr'
            subst hr'
            exact h room rfl
          | some tsock =>
            dsimp only
            intro r' hr'
            injection hr' with hr'
            subst hr'
            exact invParts_transfer (h room rfl) hget hadm tsock
        · intro r' hr'
          injection hr' with hr'
          subst hr'
          exact h room rfl

theorem invReg_stepOp {st : RoomReg} (h : InvReg st) {op : Op}
    (hop : goodOp op = true) (roomId : String) : InvReg (stepOp roomId st op) := by
  cases op with
  | join sid u now =>
    have hu : u.isAdmin = false := by simpa [goodOp] using hop
    exact invReg_joinRoom h hu roomId sid now
  | disconnect sid => exact invReg_disconnect h sid
  | kick sid t => exact invReg_userAction_kick h sid t
  | transfer sid t => exact invReg_userAction_transfer h sid t

theorem invReg_foldl (roomId : String) (ops : List Op) (st : RoomReg) (h : InvReg st)
    (hops : ∀ op ∈ ops, goodOp op = true) : InvReg (ops.foldl (stepOp roomId) st) := by
  induction ops generalizing st with
  | nil => exact h
  | cons op ops ih =>
    simp only [List.foldl_cons]
    exact ih _ (invReg_stepOp h (hops op (by simp)) roomId)
      (fun o ho => hops o (by simp [ho]))

/-! # Claim C1 -/

/-- C1 counterexample: the join handler trusts the client-asserted
`isAdmin` flag for non-first joiners (`user.isAdmin || false`), so two
joins — the second asserting the flag — reach a non-empty room holding two
admin slots outside any transfer-admin operation, refuting the at-most-one
admin invariant as stated. -/
theorem two_admins_reachable_by_client_asserted_join :
    adminCount (runOps "R" clientAdminOps) = 2 ∧
    participantCount (runOps "R" clientAdminOps) = 2 := by
  constructor <;> rfl

/-- C1 (amended): in every room state reachable by join, leave/disconnect,
kick and transfer-admin operations **whose join payloads do not assert the
client admin flag**, at most one participant slot has `isAdmin = true`;
each transfer-admin is a single atomic step of the machine, so no snapshot
with two admins is observable. -/
theorem at_most_one_admin_reachable (roomId : String) (ops : List Op)
    (hops : ∀ op ∈ ops, goodOp op = true) (r : Room)
    (hr : runOps roomId ops = some r) : adminCountL r.participants ≤ 1 := by
  have hinv : InvReg (runOps roomId ops) := by
    unfold runOps
    exact invReg_foldl roomId ops none (fun r h => by cases h) hops
  exact (hinv r hr).2

/-- Witness for C1 (amended) at a concrete two-join run. -/
theorem at_most_one_admin_reachable_witness :
    adminCountL (((runOps "R" honestJoinOps).getD (freshRoom "R" "x" 0)).participants) ≤ 1 :=
  at_most_one_admin_reachable "R" honestJoinOps (by decide) _ rfl

/-! # More shared helper lemmas -/

theorem gate_false {a g : Bool} (h : (a || g) = true) : (!a && !g) = false := by
  cases a <;> cases g <;> simp_all

theorem findSocketByUserId_spec {m : List (String × Participant)} {uid tsock : String}
    (h : findSocketByUserId m uid = some tsock) :
    ∃ f, f ∈ m ∧ f.1 = tsock ∧ f.2.id = uid := by
  unfold findSocketByUserId at h
  rcases Option.map_eq_some'.1 h with ⟨f, h1, h2⟩
  exact ⟨f, List.mem_of_find?_eq_some h1, h2, by simpa using List.find?_some h1⟩

theorem reconnectScan_eq_delete {m : List (String × Participant)} {uid sid esid : String}
    (hfind : findSocketByUserId m uid = some esid) (hne : esid ≠ sid) :
    reconnectScan m uid sid = mapDelete m esid := by
  unfold reconnectScan
  rw [hfind]
  dsimp only
  rw [if_pos hne]

theorem mapSet_append_of_not_has {m : List (String × Participant)} {k : String}
    (h : m.any (fun p => p.1 = k) = false) (v : Participant) :
    mapSet m k v = m ++ [(k, v)] := by
  unfold mapSet
  rw [h]
  simp

theorem any_key_mapDelete_false {m : List (String × Participant)} {k k' : String}
    (h : m.any (fun p => p.1 = k) = false) :
    (mapDelete m k').any (fun p => p.1 = k) = false := by
  rw [List.any_eq_false] at h ⊢
  intro x hx
  exact h x (List.mem_filter.1 hx).1

theorem countP_key_not_add {m : List (String × Participant)} (k : String) :
    m.countP (fun p => p.1 = k) + m.countP (fun p => p.1 ≠ k) = m.length := by
  induction m with
  | nil => simp
  | cons a m ih =>
    rw [List.countP_cons, List.countP_cons, List.length_cons]
    by_cases hak : a.1 = k
    · rw [if_pos (by simp [hak]), if_neg (by simp [hak])]
      omega
    · rw [if_neg (by simp [hak]), if_pos (by simp [hak])]
      omega

theorem length_mapDelete_add_one {m : List (String × Participant)} (hnd : keysNodup m)
    {f : String × Participant} (hfm : f ∈ m) :
    (mapDelete m f.1).length + 1 = m.length := by
  have h1 : m.countP (fun p => p.1 = f.1) = 1 := by
    have hle := countP_key_le_one hnd f.1
    have hpos : 0 < m.countP (fun p => p.1 = f.1) :=
      List.countP_pos_iff.2 ⟨f, hfm, by simp⟩
    omega
  have h2 : (mapDelete m f.1).length = m.countP (fun p => p.1 ≠ f.1) := by
    unfold mapDelete
    rw [List.countP_eq_length_filter]
  have h3 := countP_key_not_add (m := m) f.1
  omega

theorem mapGet_append_self {m : List (String × Participant)} {k : String}
    (h : m.any (fun p => p.1 = k) = false) (v : Participant) :
    mapGet (m ++ [(k, v)]) k = some v := by
  unfold mapGet
  rw [List.find?_append]
  have hnone : m.find? (fun p => p.1 = k) = none := by
    rw [List.find?_eq_none]
    intro x hx
    rw [List.any_eq_false] at h
    simpa using h x hx
  rw [hnone]
  simp

/-! # Claim C10 -/

/-- C10: handling a request-sync and the periodic sync broadcast are
read-only on the room: the registry entry — hence every stored field of
the room's playback state — is identical before and after; the recomputed
current time lives only in the emitted copy of the state. -/
theorem sync_paths_read_only (st : RoomReg) (sid : String) (now : ℚ) :
    (requestSync st sid now).1 = st ∧ (broadcastSync st now).1 = st := by
  constructor
  · rcases st with _ | r <;> rfl
  · rcases st with _ | r
    · rfl
    · unfold broadcastSync
      dsimp only
      split <;> rfl

/-! # Claim C7 -/

/-- C7: a playback-control request from a participant whose slot is not
admin, in a room with `allowGuestControl = false`, is answered by a
`permission-denied` event delivered to the requesting socket only, with
the registry (so the playback state) unchanged. -/
theorem playback_control_permission_denied (room : Room) (sid : String) (u : Participant)
    (hget : mapGet room.participants sid = some u) (hA : u.isAdmin = false)
    (hG : room.settings.allowGuestControl = false) (action : PCAction)
    (payload : Option PCPayload) (now : ℚ) :
    playbackControl (some room) sid action payload now =
      (some room,
       [(Target.toSid sid,
         ServerEvent.permissionDenied "Only admins can control playback")]) := by
  unfold playbackControl
  simp only [hget, hA, hG]
  simp

/-- Witness for C7 on the concrete guest room. -/
theorem playback_control_permission_denied_witness :
    playbackControl (some guestRoom) "s2" PCAction.play none 5 =
      (some guestRoom,
       [(Target.toSid "s2",
         ServerEvent.permissionDenied "Only admins can control playback")]) :=
  playback_control_permission_denied guestRoom "s2" ⟨"b", "B", false⟩ rfl rfl rfl
    PCAction.play none 5

/-! # Claim C8 -/

/-- C8: while the room is playing from a non-null anchor (`serverStartTime
= some s`, `s ≠ 0` — the handler tests JS truthiness, and real anchors are
positive `Date.now()` values — and `playbackStartTime = some p`), a
request-sync emits a sync-update whose current time is
`p + (now - s) / 1000` (so 30 server-seconds after a play from position 0
it returns 30); while not playing it emits the stored frozen current
time. -/
theorem request_sync_current_time (r : Room) (sid : String) (now : ℚ) :
    (∀ s p, r.playbackState.isPlaying = true →
      r.playbackState.serverStartTime = some s → s ≠ 0 →
      r.playbackState.playbackStartTime = some p →
      (requestSync (some r) sid now).2 =
        [(Target.toSid sid,
          ServerEvent.syncUpdate
            { r.playbackState with currentTime := p + (now - s) / 1000 } now)]) ∧
    (r.playbackState.isPlaying = false →
      (requestSync (some r) sid now).2 =
        [(Target.toSid sid, ServerEvent.syncUpdate r.playbackState now)]) := by
  constructor
  · intro s p hplay hs hs0 hp
    unfold requestSync
    simp [hplay, hs, hp, jsTruthyNum, hs0]
  · intro hstop
    unfold requestSync
    dsimp only
    rw [hstop]
    rw [if_neg (by simp)]
    rw [← hstop]

/-- Witness for C8: playing from position 0 anchored at server time 1000,
a sync requested at 31000 reports current time 30. -/
theorem request_sync_current_time_witness :
    (requestSync (some playingRoom) "s1" 31000).2 =
      [(Target.toSid "s1",
        ServerEvent.syncUpdate { playingRoom.playbackState with currentTime := 30 } 31000)] := by
  rw [(request_sync_current_time playingRoom "s1" 31000).1 1000 0 rfl rfl (by norm_num) rfl]
  norm_num

/-! # Claim C2 -/

/-- C2 counterexample: on a room positioned at the last playlist index
(also index 0), `next` and `previous` leave the state unchanged but the
handler still emits the `playback-state-changed` broadcast — the emission
sits after the switch unconditionally, so "no broadcast" fails. -/
theorem boundary_next_previous_still_broadcast :
    (playbackControl (some boundaryRoom) "s1" PCAction.next none 5).1 = some boundaryRoom ∧
    (playbackControl (some boundaryRoom) "s1" PCAction.previous none 5).1 = some boundaryRoom ∧
    (playbackControl (some boundaryRoom) "s1" PCAction.next none 5).2 ≠ [] ∧
    (playbackControl (some boundaryRoom) "s1" PCAction.previous none 5).2 ≠ [] := by
  refine ⟨by decide, by decide, by decide, by decide⟩

/-- C2 (amended): a `next` issued at the last playlist index and a
`previous` issued at index 0 leave the room's entire playback state (and
the registry) unchanged, but the handler still broadcasts
`playback-state-changed` carrying the unchanged state to the room. -/
theorem boundary_next_previous_no_state_change (room : Room) (sid : String)
    (u : Participant) (hget : mapGet room.participants sid = some u)
    (hperm : (u.isAdmin || room.settings.allowGuestControl) = true)
    (payload : Option PCPayload) (now : ℚ) :
    (¬ room.playbackState.currentIndex < (room.playbackState.playlist.length : Int) - 1 →
      playbackControl (some room) sid PCAction.next payload now =
        (some room,
         [(Target.room, ServerEvent.playbackStateChanged room.playbackState now)])) ∧
    (¬ 0 < room.playbackState.currentIndex →
      playbackControl (some room) sid PCAction.previous payload now =
        (some room,
         [(Target.room, ServerEvent.playbackStateChanged room.playbackState now)])) := by
  have hgate := gate_false hperm
  constructor
  · intro hn
    unfold playbackControl
    simp only [hget, hgate]
    rw [if_neg (by simp)]
    dsimp only [applyPCAction]
    unfold nextState
    rw [if_neg hn]
  · intro hp
    unfold playbackControl
    simp only [hget, hgate]
    rw [if_neg (by simp)]
    dsimp only [applyPCAction]
    unfold previousState
    rw [if_neg hp]

/-- Witness for C2 (amended) on the concrete one-song boundary room. -/
theorem boundary_next_previous_no_state_change_witness :
    playbackControl (some boundaryRoom) "s1" PCAction.next none 5 =
      (some boundaryRoom,
       [(Target.room, ServerEvent.playbackStateChanged boundaryRoom.playbackState 5)]) :=
  (boundary_next_previous_no_state_change boundaryRoom "s1" ⟨"a", "A", true⟩ rfl rfl
    none 5).1 (by decide)

/-! # Claim C3 -/

/-- C3 counterexample: a `play` carrying `payload.currentTime = 0` on a
room whose stored position is 42 anchors at 42, not 0 — the JS `||`
fallback treats the supplied 0 as absent. -/
theorem play_with_zero_payload_ignores_zero :
    playbackStartTimeOf (playbackControl (some pausedAt42Room) "s1" PCAction.play
      (some ⟨some 0, none⟩) 7).1 = some (some 42) ∧
    playbackStartTimeOf (playbackControl (some pausedAt42Room) "s1" PCAction.play
      (some ⟨some 0, none⟩) 7).1 ≠ some (some 0) := by
  refine ⟨by decide, by decide⟩

/-- C3 (amended): every permitted `play` sets `isPlaying = true` and
anchors the server time at the call time; `playbackStartTime` equals
`payload.currentTime` whenever the payload supplies a nonzero value, and
falls back to the previously stored position when the payload supplies
none or exactly 0 (JS `||` semantics). -/
theorem play_anchor_rules (room : Room) (sid : String) (u : Participant)
    (hget : mapGet room.participants sid = some u)
    (hperm : (u.isAdmin || room.settings.allowGuestControl) = true)
    (payload : Option PCPayload) (now : ℚ) (room' : Room)
    (hr : (playbackControl (some room) sid PCAction.play payload now).1 = some room') :
    room'.playbackState.isPlaying = true ∧
    room'.playbackState.serverStartTime = some now ∧
    (∀ c, payload.bind (·.currentTime) = some c → c ≠ 0 →
      room'.playbackState.playbackStartTime = some c) ∧
    ((payload.bind (·.currentTime) = none ∨ payload.bind (·.currentTime) = some 0) →
      room'.playbackState.playbackStartTime = some room.playbackState.currentTime) := by
  have hgate := gate_false hperm
  unfold playbackControl at hr
  simp only [hget, hgate] at hr
  rw [if_neg (by simp)] at hr
  dsimp only [applyPCAction] at hr
  injection hr with hr
  subst hr
  refine ⟨rfl, rfl, ?_, ?_⟩
  · intro c hc hc0
    dsimp only [playState]
    rw [hc]
    simp only [jsOrNum]
    rw [if_neg hc0]
  · intro hor
    dsimp only [playState]
    rcases hor with h | h
    · rw [h]
      exact rfl
    · rw [h]
      simp [jsOrNum]

/-- Witness for C3 (amended): a `play` with nonzero payload 5 anchors at
5 on the concrete room stored at 42. -/
theorem play_anchor_rules_witness :
    ((playbackControl (some pausedAt42Room) "s1" PCAction.play
        (some ⟨some 5, none⟩) 7).1.getD (freshRoom "R" "x" 0)).playbackState.playbackStartTime =
      some 5 :=
  (play_anchor_rules pausedAt42Room "s1" ⟨"a", "A", true⟩ rfl rfl
    (some ⟨some 5, none⟩) 7 _ rfl).2.2.1 5 rfl (by norm_num)

/-! # Claim C6 -/

/-- The second of two consecutive pauses finds a null anchor and leaves
the frozen position untouched. -/
theorem pauseState_pauseState_currentTime (ps : PlaybackState) (t1 t2 : ℚ) :
    (pauseState (pauseState ps t1) t2).currentTime = (pauseState ps t1).currentTime := by
  unfold pauseState
  simp [jsTruthyNum]

/-- C6: issuing `pause` twice in succession through the playback-control
handler stores the same frozen `currentTime` as issuing it once — the
second pause finds `serverStartTime` null and does not change the stored
position. -/
theorem pause_twice_same_frozen_position (room : Room) (sid : String) (u : Participant)
    (hget : mapGet room.participants sid = some u)
    (hperm : (u.isAdmin || room.settings.allowGuestControl) = true)
    (payload payload' : Option PCPayload) (t1 t2 : ℚ) (r1 r2 : Room)
    (h1 : (playbackControl (some room) sid PCAction.pause payload t1).1 = some r1)
    (h2 : (playbackControl (some r1) sid PCAction.pause payload' t2).1 = some r2) :
    r2.playbackState.currentTime = r1.playbackState.currentTime := by
  have hgate := gate_false hperm
  unfold playbackControl at h1
  simp only [hget, hgate] at h1
  rw [if_neg (by simp)] at h1
  dsimp only [applyPCAction] at h1
  injection h1 with h1
  subst h1
  unfold playbackControl at h2
  simp only [hget, hgate] at h2
  rw [if_neg (by simp)] at h2
  dsimp only [applyPCAction] at h2
  injection h2 with h2
  subst h2
  exact pauseState_pauseState_currentTime room.playbackState t1 t2

/-! # Claim C4 -/

/-- C4 counterexample: after a sole admin kicks their own participant id
the room's participant count is zero, yet the registry still holds the
room — the kick path performs no empty-room deletion. -/
theorem empty_room_persists_after_self_kick :
    participantCount (runOps "R" selfKickOps) = 0 ∧
    runOps "R" selfKickOps ≠ none := by
  refine ⟨by decide, by decide⟩

/-- C4 (amended): the leave/disconnect path deletes the registry entry
exactly when the removal empties the room; the kick path never deletes the
registry entry, and a kick whose target id differs from the kicker's own
id leaves the room non-empty — so an empty room persists only through an
admin self-kick. -/
theorem empty_room_deletion_paths :
    (∀ (r : Room) (sid : String), mapHas r.participants sid = true →
      mapDelete r.participants sid = [] → (disconnect (some r) sid).1 = none) ∧
    (∀ (room : Room) (sid : String) (t : Option String) (p : Option SettingsPatch),
      (userAction (some room) sid UserAction.kickUser t p).1 ≠ none) ∧
    (∀ (room : Room) (sid tid : String) (u : Participant) (room' : Room),
      keysNodup room.participants → mapGet room.participants sid = some u →
      u.id ≠ tid →
      (userAction (some room) sid UserAction.kickUser (some tid) none).1 = some room' →
      room'.participants ≠ []) := by
  refine ⟨?_, ?_, ?_⟩
  · intro r sid hhas hdel
    unfold disconnect
    dsimp only
    rw [if_pos hhas, hdel]
    simp
  · intro room sid t p
    unfold userAction
    dsimp only
    cases mapGet room.participants sid with
    | none => simp
    | some adminUser =>
      dsimp only
      split
      · simp
      · split
        · cases findSocketByUserId room.participants (t.getD "") with
          | none => simp
          | some tsock => simp
        · simp
  · intro room sid tid u room' hnd hget hid hr
    obtain ⟨e, hfind, he2, he1, hem⟩ := mapGet_find? hget
    unfold userAction at hr
    simp only [hget] at hr
    split at hr
    · injection hr with hr
      subst hr
      exact List.ne_nil_of_mem hem
    · split at hr
      · cases hfind2 : findSocketByUserId room.participants ((some tid).getD "") with
        | none =>
          rw [hfind2] at hr
          injection hr with hr
          subst hr
          exact List.ne_nil_of_mem hem
        | some tsock =>
          rw [hfind2] at hr
          dsimp only at hr
          injection hr with hr
          subst hr
          obtain ⟨f, hfm, hf1, hfid⟩ := findSocketByUserId_spec hfind2
          have hef : e ≠ f := by
            intro hcontra
            apply hid
            rw [← he2, hcontra, hfid]
            simp
          have hkey : e.1 ≠ tsock := by
            intro hcontra
            exact hef (eq_of_keysNodup hnd hem hfm (by rw [hcontra, hf1]))
          have hmem : e ∈ mapDelete room.participants tsock := by
            unfold mapDelete
            rw [List.mem_filter]
            exact ⟨hem, by simpa using hkey⟩
          exact List.ne_nil_of_mem hmem
      · injection hr with hr
        subst hr
        exact List.ne_nil_of_mem hem

/-- Witness for C4 (amended) on concrete rooms: the disconnect of a sole
participant deletes the room; a kick never returns a deleted registry; a
kick of the other participant leaves the room non-empty. -/
theorem empty_room_deletion_paths_witness :
    (disconnect (some soloAdminRoom) "s1").1 = none ∧
    (userAction (some guestRoom) "s1" UserAction.kickUser (some "b") none).1 ≠ none ∧
    ((userAction (some guestRoom) "s1" UserAction.kickUser (some "b") none).1.getD
      (freshRoom "R" "x" 0)).participants ≠ [] := by
  refine ⟨?_, ?_, ?_⟩
  · exact empty_room_deletion_paths.1 soloAdminRoom "s1" (by decide) (by decide)
  · exact empty_room_deletion_paths.2.1 guestRoom "s1" (some "b") none
  · exact empty_room_deletion_paths.2.2 guestRoom "s1" "b" ⟨"a", "A", true⟩ _
      (by unfold keysNodup; decide) rfl (by decide) rfl

/-! # Claim C9 -/

/-- C9 counterexample: a kick and a transfer-admin naming a participant id
that is not present in the room emit nothing at all — no error event
reaches the calling admin, contradicting the claimed NotFound report. -/
theorem missing_target_emits_nothing :
    userAction (some soloAdminRoom) "s1" UserAction.kickUser (some "ghost") none =
      (some soloAdminRoom, []) ∧
    userAction (some soloAdminRoom) "s1" UserAction.transferAdmin (some "ghost") none =
      (some soloAdminRoom, []) := by
  refine ⟨by decide, by decide⟩

/-- C9 (amended): a kick or transfer-admin naming a target id no longer
present in the room is silently ignored — no event is emitted to anyone
(in particular no error reaches the caller) and the registry is
unchanged. -/
theorem missing_target_silent_noop (room : Room) (sid tid : String) (u : Participant)
    (hget : mapGet room.participants sid = some u) (hA : u.isAdmin = true)
    (habs : ∀ p ∈ room.participants, p.2.id ≠ tid) :
    userAction (some room) sid UserAction.kickUser (some tid) none =
      (some room, []) ∧
    userAction (some room) sid UserAction.transferAdmin (some tid) none =
      (some room, []) := by
  have hfind : findSocketByUserId room.participants ((some tid).getD "") = none := by
    unfold findSocketByUserId
    rw [Option.map_eq_none']
    rw [List.find?_eq_none]
    intro x hx
    simpa using habs x hx
  constructor
  · unfold userAction
    simp only [hget]
    rw [if_neg (by simp [hA])]
    split
    · rw [hfind]
    · rfl
  · unfold userAction
    simp only [hget]
    rw [if_neg (by simp [hA])]
    split
    · rw [hfind]
    · rfl

/-- Witness for C9 (amended) at the concrete solo-admin room and the
absent id `ghost`. -/
theorem missing_target_silent_noop_witness :
    userAction (some soloAdminRoom) "s1" UserAction.kickUser (some "ghost") none =
      (some soloAdminRoom, []) :=
  (missing_target_silent_noop soloAdminRoom "s1" "ghost" ⟨"a", "A", true⟩ rfl rfl
    (by decide)).1

/-! # Claim C5 -/

/-- C5 counterexample: participant `a` is admin after the two honest
joins; after reconnecting on a fresh socket with an honest payload the
participant count is still 2 (no duplication) but `a`'s slot has lost its
admin flag — the handler rebuilds the slot from the client payload instead
of preserving the stored flag. -/
theorem reconnect_loses_admin_flag :
    participantCount (runOps "R" honestJoinOps) = 2 ∧
    participantCount (runOps "R" reconnectOps) = 2 ∧
    adminFlagOfId (runOps "R" honestJoinOps) "a" = some true ∧
    adminFlagOfId (runOps "R" reconnectOps) "a" = some false := by
  refine ⟨by decide, by decide, by decide, by decide⟩

/-- C5 (amended): a successful join by a participant whose identifier
already occupies a slot on a different socket removes the prior slot and
adds a fresh one — the participant count does not increase — but the new
slot's admin flag comes from the join payload (`user.isAdmin || false`),
or is granted when the removal emptied the room; it is **not** read from
the prior slot. -/
theorem reconnect_replaces_slot_payload_admin (room : Room) (roomId sid : String)
    (u : JoinUser) (now : ℚ) (esid : String)
    (hnd : keysNodup room.participants)
    (hv1 : roomId ≠ "") (hv2 : u.name ≠ "")
    (hfull : room.participants.length < room.settings.maxParticipants)
    (hfind : findSocketByUserId room.participants u.id = some esid)
    (hesid : esid ≠ sid)
    (hnew : mapHas room.participants sid = false)
    (room' : Room) (hr : (joinRoom (some room) roomId sid u now).1 = some room') :
    room'.participants.length = room.participants.length ∧
    mapGet room'.participants sid =
      some { id := u.id, name := u.name,
             isAdmin := if (mapDelete room.participants esid).length = 0 then true
                        else u.isAdmin } := by
  simp only [joinRoom] at hr
  rw [if_neg (by simp [hv1, hv2])] at hr
  simp only [Option.getD_some] at hr
  rw [if_neg (by omega)] at hr
  simp only [reconnectScan_eq_delete hfind hesid] at hr
  injection hr with hr
  subst hr
  obtain ⟨f, hfm, hf1, hfid⟩ := findSocketByUserId_spec hfind
  have hlen : (mapDelete room.participants esid).length + 1 = room.participants.length := by
    rw [← hf1]
    exact length_mapDelete_add_one hnd hfm
  have hnew' : (mapDelete room.participants esid).any (fun p => p.1 = sid) = false :=
    any_key_mapDelete_false hnew
  constructor
  · dsimp only
    rw [mapSet_append_of_not_has hnew' _, List.length_append]
    simp only [List.length_cons, List.length_nil]
    omega
  · dsimp only
    rw [mapSet_append_of_not_has hnew' _]
    exact mapGet_append_self hnew' _

/-- Witness for C5 (amended): participant `a` (admin on socket `s1` of the
concrete two-member room) rejoins on socket `s9` with a non-admin payload:
the count stays 2 and the fresh slot's flag follows the payload. -/
theorem reconnect_replaces_slot_payload_admin_witness :
    ((joinRoom (some guestRoom) "R" "s9" ⟨"a", "A", false⟩ 3).1.getD
      (freshRoom "R" "x" 0)).participants.length = guestRoom.participants.length ∧
    mapGet ((joinRoom (some guestRoom) "R" "s9" ⟨"a", "A", false⟩ 3).1.getD
      (freshRoom "R" "x" 0)).participants "s9" =
      some { id := "a", name := "A",
             isAdmin := if (mapDelete guestRoom.participants "s1").length = 0 then true
                        else false } :=
  reconnect_replaces_slot_payload_admin guestRoom "R" "s9" ⟨"a", "A", false⟩ 3 "s1"
    (by unfold keysNodup; decide) (by decide) (by decide) (by decide) rfl (by decide)
    rfl _ rfl

/-- Witness for C6: pausing the concrete playing room twice (at server
times 2000 and 3000) stores the same frozen position. -/
theorem pause_twice_same_frozen_position_witness :
    ((playbackControl (some ((playbackControl (some playingRoom) "s1" PCAction.pause
        none 2000).1.getD (freshRoom "R" "x" 0))) "s1" PCAction.pause
        none 3000).1.getD (freshRoom "R" "x" 0)).playbackState.currentTime =
      ((playbackControl (some playingRoom) "s1" PCAction.pause
        none 2000).1.getD (freshRoom "R" "x" 0)).playbackState.currentTime :=
  pause_twice_same_frozen_position playingRoom "s1" ⟨"a", "A", true⟩ rfl rfl
    none none 2000 3000 _ _ rfl rfl
